import Mathlib

/-!
# Frontmatter Normalizer — shallow embedding

A shallow embedding of the frontmatter-injection shell script of this
repository. The script is, in order:

* cd src/content/docs/vue                       (no error guard)
* find . -type f ( -name "*.md" -o -name "*.mdx" ) | while read file
*   filename=basename minus extension           (sed s/\.[^.]*$//)
*   title=capitalisation pass (sed -r s/(^|-)([a-z])/\U\2/g), then a second
*     sed replacing every remaining hyphen with a space
*   if not grep -q "^---" file: write the frontmatter block followed by
*     the original content back to the file (via a temp file + mv)
*
* Text is modelled as List Char, a filesystem as a list of directories
* plus a list of (path, content) files. Two granularities of a run are
* given: runScript maps each visited file to its rewritten content, the
* net effect on the visited files; runScriptStaged additionally carries
* the staging writes through the temp_file path in the traversal root,
* which matter for files named temp_file that exist before the run.
-/

namespace Normalizer

/-- ASCII lowercase test: the character class [a-z] of the first sed command. -/
def isLowerAZ (c : Char) : Bool := 'a' ≤ c && c ≤ 'z'

/-- Uppercasing performed by the sed escape \U on an ASCII lowercase letter. -/
def toUpperAZ (c : Char) : Char := Char.ofNat (c.toNat - 32)

/-- Embeds sed -r s/(^|-)([a-z])/\U\2/g after the start of the string: a
hyphen followed by an ASCII lowercase letter is consumed and replaced by the
uppercased letter (the hyphen itself is not reinserted); everything else is
copied. Scanning is left to right and non-overlapping, as in sed. -/
def capAfter : List Char → List Char
  | [] => []
  | [c] => [c]
  | c1 :: c2 :: rest =>
    if c1 = '-' && isLowerAZ c2 then toUpperAZ c2 :: capAfter rest
    else c1 :: capAfter (c2 :: rest)

/-- Embeds the whole of sed -r s/(^|-)([a-z])/\U\2/g: the anchor ^ lets a
lowercase first character be uppercased in place; after that only the
hyphen-letter pairs of capAfter match. -/
def capitalizeName (cs : List Char) : List Char :=
  match cs with
  | [] => []
  | c :: rest => if isLowerAZ c then toUpperAZ c :: capAfter rest else capAfter (c :: rest)

/-- Embeds the second sed command, which substitutes a space for every
hyphen, globally. -/
def dashToSpace (cs : List Char) : List Char :=
  cs.map (fun c => if c = '-' then ' ' else c)

/-- Embeds sed s/\.[^.]*$// on the basename: remove the last dot and the
dotless tail after it, if any dot is present. -/
def stripExt (cs : List Char) : List Char :=
  if cs.contains '.' then (((cs.reverse.dropWhile (fun c => c ≠ '.')).drop 1).reverse)
  else cs

/-- Title derivation of the script: basename minus extension, capitalisation
pass, then remaining hyphens to spaces. -/
def deriveTitle (filename : List Char) : List Char :=
  dashToSpace (capitalizeName (stripExt filename))

/-- The lines grep sees in a file: separated by newline characters; a final
segment without a trailing newline is still a line; the empty file has no
lines. -/
def linesOf : List Char → List (List Char)
  | [] => []
  | c :: rest =>
    if c = '\n' then [] :: linesOf rest
    else
      match linesOf rest with
      | [] => [[c]]
      | l :: ls => (c :: l) :: ls

/-- A line matched by the regular expression ^--- : it begins with three
hyphens (more hyphens or trailing text are allowed). -/
def startsDash3 : List Char → Bool
  | c1 :: c2 :: c3 :: _ => c1 = '-' && c2 = '-' && c3 = '-'
  | _ => false

/-- Embeds grep -q "^---" file: some line of the content begins with three
hyphens. This is the script's whole header-presence check. -/
def hasFrontmatter (cs : List Char) : Bool := (linesOf cs).any startsDash3

/-- The frontmatter block the script writes (echo appends the final
newline), as a function of the derived title. -/
def headerBlock (title : List Char) : List Char :=
  "---\ntitle: ".data ++ title ++ "\ndescription: Learn about ".data ++ title
    ++ " in Vue.js\n---\n\n# ".data ++ title ++ "\n\nContent for ".data ++ title
    ++ " goes here.\n\n".data

/-- One iteration of the loop body on a file with the given basename and
content: skip when grep finds a ^--- line, otherwise prepend the generated
block. -/
def processFile (basename content : List Char) : List Char :=
  if hasFrontmatter content then content
  else headerBlock (deriveTitle basename) ++ content

/-- Embeds find -name "*.md" -o -name "*.mdx" applied to the basename. -/
def isSelected (basename : List Char) : Bool :=
  List.isSuffixOf ".md".data basename || List.isSuffixOf ".mdx".data basename

/-- A filesystem: the set of existing directories, and the files as
path-content pairs. Paths are component lists. -/
structure FS where
  dirs : List (List String)
  files : List (List String × List Char)
deriving DecidableEq

/-- The fixed relative directory the script targets with cd. -/
def contentDir : List String := ["src", "content", "docs", "vue"]

/-- Where traversal happens: cd src/content/docs/vue moves there when the
directory exists; a failed bash cd does not stop the script, so traversal
then runs in the unchanged ambient directory. -/
def baseDir (cwd : List String) (fs : FS) : List String :=
  if (cwd ++ contentDir) ∈ fs.dirs then cwd ++ contentDir else cwd

/-- Basename of a path: its last component, as characters. -/
def basenameOf (p : List String) : List Char := (p.getLastD "").data

/-- The effect of one loop iteration on one directory entry: files under the
traversal root whose basename matches the find patterns are rewritten by
processFile; every other file is untouched. -/
def stepFile (base : List String) (pc : List String × List Char) :
    List String × List Char :=
  if base.isPrefixOf pc.1 && isSelected (basenameOf pc.1) then
    (pc.1, processFile (basenameOf pc.1) pc.2)
  else pc

/-- One run of the script on a filesystem, at the granularity of the net
effect on the visited files: the find loop visits every matching file under
the traversal root once, and each iteration rewrites only its own file. The
staging of each write through the temp_file path is carried by the finer
model runScriptStaged below. -/
def runScript (cwd : List String) (fs : FS) : FS :=
  { fs with files := fs.files.map (stepFile (baseDir cwd fs)) }

/-- Content of the file at a path, when present (first entry wins). -/
def lookupFile (files : List (List String × List Char)) (q : List String) :
    Option (List Char) :=
  (files.find? (fun pc => pc.1 == q)).map Prod.snd

/-- A shell redirection writing v to the path q: the existing entry is
replaced in place, otherwise a new entry is appended. -/
def writeFile (files : List (List String × List Char)) (q : List String)
    (v : List Char) : List (List String × List Char) :=
  if files.any (fun pc => pc.1 == q) then
    files.map (fun pc => if pc.1 == q then (q, v) else pc)
  else files ++ [(q, v)]

/-- Removal of the entry at the path q, as mv does to its source. -/
def removeFile (files : List (List String × List Char)) (q : List String) :
    List (List String × List Char) :=
  files.filter (fun pc => !(pc.1 == q))

/-- One iteration of the while loop on the file at path q, with the staging
the script really performs in the traversal root: the frontmatter block is
echoed into temp_file (truncating any previous file of that name), cat
appends the original content of q, and mv renames temp_file onto q, removing
temp_file. A skipped file causes no write at all. -/
def loopIter (base : List String) (files : List (List String × List Char))
    (q : List String) : List (List String × List Char) :=
  match lookupFile files q with
  | none => files
  | some c =>
    if hasFrontmatter c then files
    else
      let tmp := base ++ ["temp_file"]
      let block := headerBlock (deriveTitle (basenameOf q))
      let afterEcho := writeFile files tmp block
      let afterCat := writeFile afterEcho tmp (block ++ c)
      writeFile (removeFile afterCat tmp) q (block ++ c)

/-- The paths find enumerates before the loop runs: files under the
traversal root whose basename matches one of the two patterns. -/
def foundFiles (base : List String) (files : List (List String × List Char)) :
    List (List String) :=
  (files.map Prod.fst).filter (fun q => base.isPrefixOf q && isSelected (basenameOf q))

/-- One run of the script with the temp_file staging modelled: the loop body
runs once per found file, each iteration writing through temp_file in the
traversal root as the script does. -/
def runScriptStaged (cwd : List String) (fs : FS) : FS :=
  { fs with files :=
      (foundFiles (baseDir cwd fs) fs.files).foldl (loopIter (baseDir cwd fs)) fs.files }

/-- Concrete state: the content directory with one markerless file, used to
instantiate the general theorems. -/
def fsDocs : FS :=
  { dirs := [["src", "content", "docs", "vue"]],
    files := [(["src", "content", "docs", "vue", "introduction.md"], "Welcome.\n".data)] }

/-- Concrete state: a file that does not begin with the delimiter but holds a
line starting with three hyphens further down. -/
def fsMidMarker : FS :=
  { dirs := [["src", "content", "docs", "vue"]],
    files := [(["src", "content", "docs", "vue", "notes.md"], "hello\n--- dashes\nworld".data)] }

/-- Concrete state: a file whose first line is four hyphens, not exactly
three. -/
def fsFourDash : FS :=
  { dirs := [["src", "content", "docs", "vue"]],
    files := [(["src", "content", "docs", "vue", "page.md"], "----\nbody".data)] }

/-- Concrete state: a file already starting with a header. -/
def fsHeadered : FS :=
  { dirs := [["src", "content", "docs", "vue"]],
    files := [(["src", "content", "docs", "vue", "ready.md"], "---\ntitle: X\n---\nbody".data)] }

/-- Concrete state: a markerless plain-text file with a non-matching
extension next to a markerless markdown file. -/
def fsStagedKeep : FS :=
  { dirs := [["src", "content", "docs", "vue"]],
    files := [(["src", "content", "docs", "vue", "notes.txt"], "plain text".data),
              (["src", "content", "docs", "vue", "fresh.md"], "body".data)] }

/-- Concrete state: a leftover file named temp_file sits in the traversal
root next to a markerless markdown file. -/
def fsStagedClobber : FS :=
  { dirs := [["src", "content", "docs", "vue"]],
    files := [(["src", "content", "docs", "vue", "temp_file"], "leftover".data),
              (["src", "content", "docs", "vue", "fresh.md"], "body".data)] }

/-- Concrete state: a headerless file with a horizontal rule in its middle. -/
def fsRuled : FS :=
  { dirs := [["src", "content", "docs", "vue"]],
    files := [(["src", "content", "docs", "vue", "essay.md"], "para one\n---\npara two".data)] }

/-- Concrete state: a matching file with empty content. -/
def fsEmptyFile : FS :=
  { dirs := [["src", "content", "docs", "vue"]],
    files := [(["src", "content", "docs", "vue", "overview.mdx"], ([] : List Char))] }

/-- Concrete state: the content directory does not exist; the ambient working
directory holds a markerless markdown file. -/
def fsAmbient : FS :=
  { dirs := [["work"]],
    files := [(["work", "readme.md"], "hello".data)] }

theorem runScript_files (cwd : List String) (fs : FS) :
    (runScript cwd fs).files = fs.files.map (stepFile (baseDir cwd fs)) := rfl

theorem linesOf_cons_ne (c : Char) (cs : List Char) (h : ¬ c = '\n') :
    linesOf (c :: cs) = (c :: (linesOf cs).headD []) :: (linesOf cs).tail := by
  rw [linesOf, if_neg h]
  cases linesOf cs <;> simp

theorem hasFrontmatter_dash3 (rest : List Char) :
    hasFrontmatter ('-' :: '-' :: '-' :: rest) = true := by
  have h : ¬ ('-' : Char) = '\n' := by decide
  rw [hasFrontmatter, linesOf_cons_ne _ _ h, linesOf_cons_ne _ _ h, linesOf_cons_ne _ _ h]
  simp [startsDash3]

theorem hasFrontmatter_headerBlock (t c : List Char) :
    hasFrontmatter (headerBlock t ++ c) = true := by
  have hlit : "---\ntitle: ".data = '-' :: '-' :: '-' :: "\ntitle: ".data := by decide
  simp only [headerBlock, hlit, List.cons_append, List.append_assoc]
  exact hasFrontmatter_dash3 _

theorem processFile_idem (n c : List Char) :
    processFile n (processFile n c) = processFile n c := by
  by_cases h : hasFrontmatter c = true
  · simp [processFile, h]
  · have h2 : hasFrontmatter c = false := by simpa using h
    simp [processFile, h2, hasFrontmatter_headerBlock]

theorem stepFile_idem (b : List String) (pc : List String × List Char) :
    stepFile b (stepFile b pc) = stepFile b pc := by
  by_cases h : (b.isPrefixOf pc.1 && isSelected (basenameOf pc.1)) = true
  · simp [stepFile, h, processFile_idem]
  · simp [stepFile, h]

theorem map_stepFile_idem (b : List String) (l : List (List String × List Char)) :
    (l.map (stepFile b)).map (stepFile b) = l.map (stepFile b) := by
  induction l with
  | nil => rfl
  | cons x xs ih => simp only [List.map_cons, stepFile_idem, ih]

/-- C1 (amended): for every .md or .mdx file under the traversal root whose
content contains no line beginning with three hyphens, after one run the file
consists of the delimiter line, a title line carrying the filename-derived
title, a description line containing that title, the closing delimiter, the
blank-line-separated placeholder body, and then the original content
unchanged as the remaining bytes. -/
theorem c1_amended (cwd : List String) (fs : FS) (p : List String) (c : List Char)
    (hmem : (p, c) ∈ fs.files)
    (hbase : (baseDir cwd fs).isPrefixOf p = true)
    (hsel : isSelected (basenameOf p) = true)
    (hnom : hasFrontmatter c = false) :
    (p, "---\ntitle: ".data ++ deriveTitle (basenameOf p)
        ++ "\ndescription: Learn about ".data ++ deriveTitle (basenameOf p)
        ++ " in Vue.js\n---\n\n# ".data ++ deriveTitle (basenameOf p)
        ++ "\n\nContent for ".data ++ deriveTitle (basenameOf p)
        ++ " goes here.\n\n".data ++ c) ∈ (runScript cwd fs).files := by
  have e : stepFile (baseDir cwd fs) (p, c)
      = (p, headerBlock (deriveTitle (basenameOf p)) ++ c) := by
    simp [stepFile, hbase, hsel, processFile, hnom]
  have h := List.mem_map_of_mem (stepFile (baseDir cwd fs)) hmem
  rw [e] at h
  exact h

/-- Witness for C1 at a concrete state: introduction.md gains the block with
title Introduction and keeps its body. -/
theorem c1_witness :
    (["src", "content", "docs", "vue", "introduction.md"],
      "---\ntitle: ".data
        ++ deriveTitle (basenameOf ["src", "content", "docs", "vue", "introduction.md"])
        ++ "\ndescription: Learn about ".data
        ++ deriveTitle (basenameOf ["src", "content", "docs", "vue", "introduction.md"])
        ++ " in Vue.js\n---\n\n# ".data
        ++ deriveTitle (basenameOf ["src", "content", "docs", "vue", "introduction.md"])
        ++ "\n\nContent for ".data
        ++ deriveTitle (basenameOf ["src", "content", "docs", "vue", "introduction.md"])
        ++ " goes here.\n\n".data ++ "Welcome.\n".data) ∈ (runScript [] fsDocs).files :=
  c1_amended [] fsDocs ["src", "content", "docs", "vue", "introduction.md"]
    "Welcome.\n".data (by decide) (by decide) (by decide) (by decide)

/-- C1 counterexample: notes.md does not begin with the header delimiter, yet
one run leaves the whole state unchanged and the file still does not start
with three hyphens, because its mid-file line starting with three hyphens
satisfies the grep check. -/
theorem c1_counterexample :
    startsDash3 "hello\n--- dashes\nworld".data = false ∧
    runScript [] fsMidMarker = fsMidMarker ∧
    ∀ pc ∈ (runScript [] fsMidMarker).files, startsDash3 pc.2 = false := by decide

/-- C2 (amended): a file is left unchanged by the loop body exactly when some
line anywhere in its content begins with three hyphens; equivalently,
synthesis is triggered exactly when no such line exists. The check is not
restricted to the first line and does not require the line to be exactly
three hyphens. -/
theorem c2_amended (n c : List Char) :
    processFile n c = c ↔ ∃ l ∈ linesOf c, startsDash3 l = true := by
  constructor
  · intro h
    cases hfm : hasFrontmatter c with
    | true =>
      have := List.any_eq_true.mp hfm
      simpa using this
    | false =>
      exfalso
      rw [processFile, if_neg (by simp [hfm])] at h
      have hb := hasFrontmatter_headerBlock (deriveTitle n) c
      rw [h, hfm] at hb
      exact Bool.noConfusion hb
  · intro hex
    have hfm : hasFrontmatter c = true := by
      rw [hasFrontmatter]
      exact List.any_eq_true.mpr (by simpa using hex)
    simp [processFile, hfm]

/-- Witness for C2 at a concrete input: a file whose third line begins with
three hyphens is skipped although its first line does not. -/
theorem c2_witness :
    processFile "a.md".data "x\ny\n--- z".data = "x\ny\n--- z".data :=
  (c2_amended "a.md".data "x\ny\n--- z".data).mpr (by decide)

/-- C2 counterexample: the first line of page.md is four hyphens, not a line
consisting solely of three, so the claim calls for synthesis; the run skips
the file and the whole state is unchanged. -/
theorem c2_counterexample :
    (linesOf "----\nbody".data).head? ≠ some "---".data ∧
    runScript [] fsFourDash = fsFourDash := by decide

/-- C3 (amended): title derivation strips the extension, deletes each hyphen
that is immediately followed by a lowercase letter while uppercasing that
letter, and uppercases a lowercase first letter, so quick-start.mdx yields
QuickStart and introduction.md yields Introduction. -/
theorem c3_amended_titles :
    deriveTitle "quick-start.mdx".data = "QuickStart".data ∧
    deriveTitle "introduction.md".data = "Introduction".data := by decide

/-- C3 counterexample: quick-start.mdx does not yield the title Quick Start;
the capitalisation pass consumes the hyphen, producing QuickStart. -/
theorem c3_counterexample :
    deriveTitle "quick-start.mdx".data ≠ "Quick Start".data ∧
    deriveTitle "quick-start.mdx".data = "QuickStart".data := by decide

/-- C4: the normalizer is idempotent. Running it twice from any starting
state equals running it once, and after one run every file is a fixed point
of the loop body, so the second run performs no writes. -/
theorem c4_idempotent (cwd : List String) (fs : FS) :
    runScript cwd (runScript cwd fs) = runScript cwd fs ∧
    ∀ pc ∈ (runScript cwd fs).files,
      stepFile (baseDir cwd (runScript cwd fs)) pc = pc := by
  constructor
  · cases fs with
    | mk d f =>
      show FS.mk d _ = FS.mk d _
      congr 1
      exact map_stepFile_idem _ _
  · intro pc hpc
    rw [runScript_files] at hpc
    rcases List.mem_map.mp hpc with ⟨q, _, rfl⟩
    exact stepFile_idem _ _

/-- Witness for C4 at a concrete state. -/
theorem c4_witness :
    runScript [] (runScript [] fsDocs) = runScript [] fsDocs ∧
    ∀ pc ∈ (runScript [] fsDocs).files,
      stepFile (baseDir [] (runScript [] fsDocs)) pc = pc :=
  c4_idempotent [] fsDocs

/-- C5: a file whose content already starts with the header delimiter line
is left byte-for-byte identical by a run. -/
theorem c5_skip (cwd : List String) (fs : FS) (p : List String) (c : List Char)
    (hmem : (p, c) ∈ fs.files)
    (hstart : (linesOf c).head? = some ['-', '-', '-']) :
    (p, c) ∈ (runScript cwd fs).files := by
  have hfm : hasFrontmatter c = true := by
    rw [hasFrontmatter]
    cases hl : linesOf c with
    | nil => rw [hl] at hstart; exact Option.noConfusion hstart
    | cons a as =>
      rw [hl] at hstart
      have ha : a = ['-', '-', '-'] := by simpa using hstart
      subst ha
      simp [startsDash3]
  have e : stepFile (baseDir cwd fs) (p, c) = (p, c) := by
    rw [stepFile]
    split
    · simp [processFile, hfm]
    · rfl
  have h := List.mem_map_of_mem (stepFile (baseDir cwd fs)) hmem
  rw [e] at h
  exact h

/-- Witness for C5 at a concrete state: ready.md keeps its bytes. -/
theorem c5_witness :
    (["src", "content", "docs", "vue", "ready.md"], "---\ntitle: X\n---\nbody".data)
      ∈ (runScript [] fsHeadered).files :=
  c5_skip [] fsHeadered ["src", "content", "docs", "vue", "ready.md"]
    "---\ntitle: X\n---\nbody".data (by decide) (by decide)

/-- C6: evaluation of the code at the failing state. The content directory
src/content/docs/vue does not exist, yet the run does not abort: the failed
cd has no error guard, so traversal happens in the ambient directory and
readme.md there is rewritten with a synthesized header. -/
theorem c6_cd_fallback :
    (runScript ["work"] fsAmbient).files =
      [(["work", "readme.md"],
        ("---\ntitle: Readme\ndescription: Learn about Readme in Vue.js"
          ++ "\n---\n\n# Readme\n\nContent for Readme goes here.\n\nhello").data)] := by
  decide

theorem mem_writeFile_of_ne {p : List String} {c : List Char}
    (files : List (List String × List Char)) (q : List String) (v : List Char)
    (hne : ¬ p = q) (hmem : (p, c) ∈ files) : (p, c) ∈ writeFile files q v := by
  rw [writeFile]
  split
  · have e : (fun pc => if pc.1 == q then (q, v) else pc) (p, c) = (p, c) := by
      simp [beq_iff_eq, hne]
    exact e ▸ List.mem_map_of_mem _ hmem
  · exact List.mem_append_left _ hmem

theorem mem_removeFile_of_ne {p : List String} {c : List Char}
    (files : List (List String × List Char)) (q : List String)
    (hne : ¬ p = q) (hmem : (p, c) ∈ files) : (p, c) ∈ removeFile files q := by
  rw [removeFile]
  exact List.mem_filter.mpr ⟨hmem, by simp [beq_iff_eq, hne]⟩

theorem mem_loopIter_of_ne (base : List String) (q p : List String) (c : List Char)
    (files : List (List String × List Char))
    (hq : isSelected (basenameOf q) = true)
    (hsel : isSelected (basenameOf p) = false)
    (htmp : ¬ p = base ++ ["temp_file"])
    (hmem : (p, c) ∈ files) : (p, c) ∈ loopIter base files q := by
  have hpq : ¬ p = q := by
    intro h
    rw [h, hq] at hsel
    exact Bool.noConfusion hsel
  rw [loopIter]
  cases lookupFile files q with
  | none => exact hmem
  | some c0 =>
    by_cases hfm : hasFrontmatter c0 = true
    · simpa [hfm] using hmem
    · rw [Bool.not_eq_true] at hfm
      simp only [hfm, Bool.false_eq_true, if_false]
      exact mem_writeFile_of_ne _ _ _ hpq
        (mem_removeFile_of_ne _ _ htmp
          (mem_writeFile_of_ne _ _ _ htmp
            (mem_writeFile_of_ne _ _ _ htmp hmem)))

theorem foldl_loopIter_pres (base : List String) (p : List String) (c : List Char)
    (hsel : isSelected (basenameOf p) = false)
    (htmp : ¬ p = base ++ ["temp_file"]) :
    ∀ (qs : List (List String)) (files : List (List String × List Char)),
      (∀ q ∈ qs, isSelected (basenameOf q) = true) → (p, c) ∈ files →
      (p, c) ∈ qs.foldl (loopIter base) files := by
  intro qs
  induction qs with
  | nil => intro files _ h; exact h
  | cons q rest ih =>
    intro files hq hmem
    rw [List.foldl_cons]
    exact ih _ (fun r hr => hq r (List.mem_cons_of_mem _ hr))
      (mem_loopIter_of_ne base q p c files (hq q (List.mem_cons_self _ _)) hsel htmp hmem)

/-- C7 (amended): a file whose basename matches neither *.md nor *.mdx is
never modified by a run, with the single exception of the staging path
temp_file in the traversal root: every other non-matching file keeps its
bytes through the run with the staging writes modelled. -/
theorem c7_amended (cwd : List String) (fs : FS) (p : List String) (c : List Char)
    (hmem : (p, c) ∈ fs.files)
    (hsel : isSelected (basenameOf p) = false)
    (htmp : ¬ p = baseDir cwd fs ++ ["temp_file"]) :
    (p, c) ∈ (runScriptStaged cwd fs).files := by
  have hall : ∀ q ∈ foundFiles (baseDir cwd fs) fs.files,
      isSelected (basenameOf q) = true := by
    intro q hqf
    have h := List.of_mem_filter hqf
    exact ((Bool.and_eq_true _ _).mp h).2
  exact foldl_loopIter_pres (baseDir cwd fs) p c hsel htmp _ _ hall hmem

/-- Witness for C7 at a concrete state: a markerless .txt file keeps its
bytes even while its markdown neighbour is synthesized through temp_file. -/
theorem c7_witness :
    (["src", "content", "docs", "vue", "notes.txt"], "plain text".data)
      ∈ (runScriptStaged [] fsStagedKeep).files :=
  c7_amended [] fsStagedKeep ["src", "content", "docs", "vue", "notes.txt"]
    "plain text".data (by decide) (by decide) (by decide)

/-- C7 counterexample: temp_file does not match the extensions, so the claim
says a run never modifies it; yet a leftover temp_file in the traversal root
is overwritten by the echo staging write and removed by mv as soon as the
neighbouring markdown file is synthesized, so its original bytes are gone
after one run. -/
theorem c7_counterexample :
    isSelected (basenameOf ["src", "content", "docs", "vue", "temp_file"]) = false ∧
    (["src", "content", "docs", "vue", "temp_file"], "leftover".data)
      ∈ fsStagedClobber.files ∧
    ¬ (["src", "content", "docs", "vue", "temp_file"], "leftover".data)
      ∈ (runScriptStaged [] fsStagedClobber).files ∧
    ((runScriptStaged [] fsStagedClobber).files.map Prod.fst)
      = [["src", "content", "docs", "vue", "fresh.md"]] := by decide

/-- C8: a matching file containing, anywhere, a line that begins with three
hyphens is left byte-for-byte unchanged by a run, even when the file does
not begin with a header. -/
theorem c8_marker_anywhere (cwd : List String) (fs : FS) (p : List String) (c : List Char)
    (hmem : (p, c) ∈ fs.files)
    (hmark : ∃ l ∈ linesOf c, startsDash3 l = true) :
    (p, c) ∈ (runScript cwd fs).files := by
  have hfm : hasFrontmatter c = true := by
    rw [hasFrontmatter]
    exact List.any_eq_true.mpr (by simpa using hmark)
  have e : stepFile (baseDir cwd fs) (p, c) = (p, c) := by
    rw [stepFile]
    split
    · simp [processFile, hfm]
    · rfl
  have h := List.mem_map_of_mem (stepFile (baseDir cwd fs)) hmem
  rw [e] at h
  exact h

/-- Witness for C8 at a concrete state: essay.md has a horizontal rule in
its middle and keeps its bytes. -/
theorem c8_witness :
    (["src", "content", "docs", "vue", "essay.md"], "para one\n---\npara two".data)
      ∈ (runScript [] fsRuled).files :=
  c8_marker_anywhere [] fsRuled ["src", "content", "docs", "vue", "essay.md"]
    "para one\n---\npara two".data (by decide) (by decide)

/-- C9: only hyphens act as separators in title derivation. my_file.md keeps
its underscore and the letter after it stays lowercase, quick-start.mdx shows
a hyphen before a lowercase letter being deleted, and in general the
capitalisation pass copies an underscore verbatim and leaves the following
non-hyphen character untouched. -/
theorem c9_separators :
    deriveTitle "my_file.md".data = "My_file".data ∧
    deriveTitle "quick-start.mdx".data = "QuickStart".data ∧
    ∀ (c : Char) (cs : List Char), ¬ c = '-' →
      capAfter ('_' :: c :: cs) = '_' :: c :: capAfter cs := by
  refine ⟨by decide, by decide, ?_⟩
  intro c cs hc
  rw [capAfter, if_neg (by simp)]
  cases cs with
  | nil => simp [capAfter]
  | cons d ds => rw [capAfter, if_neg (by simp [hc])]

/-- Witness for C9 at a concrete input. -/
theorem c9_witness : capAfter ['_', 'f'] = '_' :: 'f' :: capAfter [] :=
  c9_separators.2.2 'f' [] (by decide)

/-- C10: a matching file with empty content has no line for grep to match,
so it is classified as headerless, and after one run it consists exactly of
the generated header block with nothing after it. -/
theorem c10_empty (cwd : List String) (fs : FS) (p : List String)
    (hmem : (p, ([] : List Char)) ∈ fs.files)
    (hbase : (baseDir cwd fs).isPrefixOf p = true)
    (hsel : isSelected (basenameOf p) = true) :
    hasFrontmatter [] = false ∧
    (p, headerBlock (deriveTitle (basenameOf p))) ∈ (runScript cwd fs).files := by
  refine ⟨by decide, ?_⟩
  have e : stepFile (baseDir cwd fs) (p, ([] : List Char))
      = (p, headerBlock (deriveTitle (basenameOf p))) := by
    simp [stepFile, hbase, hsel, processFile, hasFrontmatter, linesOf]
  have h := List.mem_map_of_mem (stepFile (baseDir cwd fs)) hmem
  rw [e] at h
  exact h

/-- Witness for C10 at a concrete state: an empty overview.mdx becomes
exactly the generated block. -/
theorem c10_witness :
    hasFrontmatter [] = false ∧
    (["src", "content", "docs", "vue", "overview.mdx"],
      headerBlock (deriveTitle (basenameOf ["src", "content", "docs", "vue", "overview.mdx"])))
      ∈ (runScript [] fsEmptyFile).files :=
  c10_empty [] fsEmptyFile ["src", "content", "docs", "vue", "overview.mdx"]
    (by decide) (by decide) (by decide)

end Normalizer
